import Mathlib

/-!
Verification of the profile-monitor program (src/TK.py).

The program periodically fetches one web page, extracts actor-profile
records from its markup with BeautifulSoup, deduplicates them against a
sqlite table via INSERT OR IGNORE, and sends one Telegram notification per
new profile.  A /ping command reports liveness.

Shallow embedding conventions:
* Python strings are Lean `String`; `str.startswith` and the `in` substring
  operator are embedded as `pyStartswith` / `pyContains` over the character
  lists, which is exactly their Python semantics.
* The HTML parsing collaborator (BeautifulSoup) is embedded as a queryable
  tree: a `Doc` is the list of `div` elements (`Block`s) in document order,
  and each `Block` exposes the results of the three per-block queries the
  code performs (`find('a')`, the name-tag `find`, `find('img')`), together
  with its own class attribute values (needed by the two `find_all`
  block-discovery queries).
* The HTTP collaborator (`requests.get` + `raise_for_status`) is embedded
  as a `FetchResult`: either a transport-level failure (which raises) or a
  response with a status code and a parsed body.  `raise_for_status` raises
  exactly for status codes 400–599 (client and server errors).
* The sqlite table is a list of `Row`s in insertion order; the UNIQUE
  constraint on `profile_url` makes INSERT OR IGNORE a no-op when the url
  is already present.
* The Telegram transport is embedded as a delivery oracle
  `ok : Send → Bool`; `send_notification` returns the trace of attempted
  sends with their outcomes.
-/

/-- Python `needle in haystack` on character lists: `n` occurs contiguously
in the list. -/
def containsChars (n : List Char) : List Char → Bool
  | [] => n.isEmpty
  | c :: cs => n.isPrefixOf (c :: cs) || containsChars n cs

/-- Python `haystack.__contains__(needle)` (the `in` operator) for strings. -/
def pyContains (haystack needle : String) : Bool :=
  containsChars needle.data haystack.data

/-- Python `s.startswith(pre)`. -/
def pyStartswith (s pre : String) : Bool :=
  pre.data.isPrefixOf s.data

/-- The monitored site's origin, hard-coded in `extract_profiles` as the
prefix `'https://www.kino-teatr.ru'` used to absolutize relative urls. -/
def SITE : String := "https://www.kino-teatr.ru"

/-- `URL_TO_MONITOR` from the settings block. -/
def URL_TO_MONITOR : String := "https://www.kino-teatr.ru/mourn/y2025/m12/"

/-- `CHECK_INTERVAL = 300` seconds. -/
def CHECK_INTERVAL : Nat := 300

/-- One `div` element of the parsed page, exposing exactly what the code
queries on it:
* `classes`   — the values of its `class` attribute (empty list when the
  attribute is absent; BeautifulSoup calls class filters per value);
* `link`      — `block.find('a')`: `none` when no anchor exists, otherwise
  `some h` where `h` is the anchor's `href` attribute (`none` when absent);
* `nameText`  — `get_text()` of
  `block.find(['h3','h4','div'], class_=...name/title...)`, `none` when no
  such tag exists;
* `imgSrc`    — `block.find('img')`: `none` when no image exists, otherwise
  `some s` where `s` is its `src` attribute (`none` when absent). -/
structure Block where
  classes : List String
  link : Option (Option String)
  nameText : Option String
  imgSrc : Option (Option String)
deriving DecidableEq, Repr

/-- The parsed page: its `div` elements in document order. -/
structure Doc where
  blocks : List Block
deriving DecidableEq, Repr

/-- An extracted profile dict `{'url': ..., 'name': ..., 'photo': ...}`. -/
structure Profile where
  url : String
  name : String
  photo : Option String
deriving DecidableEq, Repr

/-- `soup.find_all('div', class_=['actor-item', 'person-item'])`: a div
matches when one of its class values equals one of the two given names. -/
def primaryMatch (b : Block) : Bool :=
  b.classes.any (fun c => c == "actor-item" || c == "person-item")

/-- `soup.find_all('div', class_=lambda x: x and ('item' in x or 'card' in x))`:
a div matches when some class value has `"item"` or `"card"` as a substring
(a div without a class attribute is passed `None`, which is falsy). -/
def secondaryMatch (b : Block) : Bool :=
  b.classes.any (fun c => pyContains c "item" || pyContains c "card")

/-- Block discovery in `extract_profiles`: the primary selector, falling
back to the secondary one when the primary yields no blocks
(`if not profile_blocks:`). -/
def findProfileBlocks (d : Doc) : List Block :=
  let profile_blocks := d.blocks.filter primaryMatch
  if profile_blocks.isEmpty then d.blocks.filter secondaryMatch
  else profile_blocks

/-- The body of the per-block `for` loop in `extract_profiles`.
`none` means the block was skipped: `continue` when the anchor is missing
or its `href` is absent or empty (both falsy in
`if not link_tag or not link_tag.get('href')`).  Relative urls
(not starting with `'http'`) are prefixed with the site origin; the name
falls back to the sentinel `"Неизвестно"`; an image `src` that is absent or
empty yields no photo. -/
def extractBlock (b : Block) : Option Profile :=
  match b.link with
  | none => none
  | some none => none
  | some (some href) =>
    if href = "" then none
    else
      let profile_url :=
        if pyStartswith href "http" then href else SITE ++ href
      let name :=
        match b.nameText with
        | some t => t.trim
        | none => "Неизвестно"
      let photo0 : Option String :=
        match b.imgSrc with
        | some (some s) => if s = "" then none else some s
        | _ => none
      let photo_url : Option String :=
        match photo0 with
        | some p => some (if pyStartswith p "http" then p else SITE ++ p)
        | none => none
      some { url := profile_url, name := name, photo := photo_url }

/-- The pure part of `extract_profiles`: block discovery followed by the
fault-isolated per-block extraction loop (skipped blocks contribute
nothing, the rest are appended in document order). -/
def extractFromDoc (d : Doc) : List Profile :=
  (findProfileBlocks d).filterMap extractBlock

/-- Outcome of `requests.get(URL_TO_MONITOR, headers=headers)`: either a
transport-level failure (timeout, DNS, connection reset — an exception) or
a response carrying a status code and its parsed body. -/
inductive FetchResult where
  | success (status : Nat) (body : Doc)
  | failure (msg : String)
deriving DecidableEq, Repr

/-- `response.raise_for_status()` raises `HTTPError` exactly for client
(4xx) and server (5xx) error codes, i.e. 400 ≤ status < 600. -/
def raisesForStatus (status : Nat) : Bool :=
  decide (400 ≤ status) && decide (status < 600)

/-- `ProfileMonitor.extract_profiles`: on any exception inside the outer
`try` — a transport failure of `requests.get` or the `HTTPError` from
`raise_for_status` — the handler logs and returns `[]`; otherwise the page
body is parsed and the blocks are processed. -/
def extract_profiles (r : FetchResult) : List Profile :=
  match r with
  | .failure _ => []
  | .success status body =>
    if raisesForStatus status then [] else extractFromDoc body

/-- One row of the sqlite table `tracked_profiles`
(`profile_url TEXT UNIQUE, name TEXT, photo_url TEXT,
created_at TIMESTAMP DEFAULT CURRENT_TIMESTAMP`). -/
structure Row where
  profile_url : String
  name : String
  photo_url : Option String
  created_at : Nat
deriving DecidableEq, Repr

/-- Whether the table already holds a row keyed by this url. -/
def hasUrl (db : List Row) (u : String) : Bool :=
  db.any (fun r => r.profile_url == u)

/-- `ProfileMonitor.save_profile`: `INSERT OR IGNORE` keyed on the UNIQUE
`profile_url` column.  When the url is absent a new row is appended (with
`created_at` defaulted to the current time) and `cursor.rowcount > 0`
reports `true`; when present the insert is ignored, the table is unchanged
and `rowcount` is `0`. -/
def save_profile (db : List Row) (now : Nat) (p : Profile) : List Row × Bool :=
  if hasUrl db p.url then (db, false)
  else (db ++ [⟨p.url, p.name, p.photo, now⟩], true)

/-- The `for` loop of `get_new_profiles`: save every extracted profile in
order, collecting those reported new. -/
def saveAll (db : List Row) (now : Nat) : List Profile → List Row × List Profile
  | [] => (db, [])
  | p :: ps =>
    let r := save_profile db now p
    let rest := saveAll r.1 now ps
    (rest.1, if r.2 then p :: rest.2 else rest.2)

/-- `ProfileMonitor.get_new_profiles`: extract the current profiles, save
each, and return the sub-list reported new (with the resulting table). -/
def get_new_profiles (db : List Row) (now : Nat) (r : FetchResult) :
    List Row × List Profile :=
  saveAll db now (extract_profiles r)

/-- One attempted delivery over the Telegram transport: `bot.send_photo`
with a caption, or `bot.send_message` with a text body. -/
inductive Send where
  | photo (chat : String) (photoUrl : String) (caption : String)
  | text (chat : String) (body : String)
deriving DecidableEq, Repr

/-- The primary message of `send_notification`. -/
def notifMessage (p : Profile) : String :=
  "🎭 Новый профиль актера:\n\n👤 Имя: " ++ p.name ++ "\n🔗 Ссылка: " ++ p.url

/-- The fallback text built inside the `except` handler of
`send_notification`. -/
def fallbackText (p : Profile) : String :=
  "🎭 Новый профиль (ошибка загрузки фото):\n👤 " ++ p.name ++ "\n🔗 " ++ p.url

/-- The primary delivery chosen by `if profile['photo']:` — a photo send
when the photo field is truthy (present and non-empty), a plain message
otherwise. -/
def primarySend (chat : String) (p : Profile) : Send :=
  match p.photo with
  | some ph => if ph = "" then Send.text chat (notifMessage p)
               else Send.photo chat ph (notifMessage p)
  | none => Send.text chat (notifMessage p)

/-- The body of the `for` loop in `send_notification` for one profile,
returning the trace of attempted sends paired with their outcomes under
the delivery oracle `ok`.  A failure of the primary attempt is caught and
answered by exactly one fallback `send_message`; a failure of the fallback
is caught and only logged. -/
def notifyOne (ok : Send → Bool) (chat : String) (p : Profile) :
    List (Send × Bool) :=
  let pr := primarySend chat p
  if ok pr then [(pr, true)]
  else
    let fb := Send.text chat (fallbackText p)
    [(pr, false), (fb, ok fb)]

/-- `send_notification`: the loop over all new profiles, concatenating the
per-profile delivery traces in order. -/
def send_notification (ok : Send → Bool) (chat : String)
    (new_profiles : List Profile) : List (Send × Bool) :=
  (new_profiles.map (notifyOne ok chat)).flatten

/-- The text-only sends of a delivery trace. -/
def textSends (trace : List (Send × Bool)) : List Send :=
  (trace.map Prod.fst).filter (fun s => match s with
    | Send.text _ _ => true
    | Send.photo _ _ _ => false)

/-- Outcome of the database block of `ping_command`: either the `COUNT(*)`
query succeeds, or some step of the `try` block raises. -/
inductive DbCheck where
  | ok (count : Nat)
  | fail (msg : String)
deriving DecidableEq, Repr

/-- Outcome of `requests.get(URL_TO_MONITOR, timeout=10)` in
`ping_command`: a response with a status code, or an exception. -/
inductive PageCheck where
  | response (status : Nat)
  | error (msg : String)
deriving DecidableEq, Repr

/-- `ping_command`.  The first `try` block binds the local `count` only on
success; its handler binds only `db_status`.  The second `try` block binds
`page_status` on both paths.  The status message then interpolates
`count`: when the database check failed, `count` was never assigned and
the f-string raises `NameError`, which nothing in `ping_command` catches —
modelled as `Except.error`.  Otherwise the reply text is returned. -/
def ping_command (check_time : String) (db : DbCheck) (page : PageCheck) :
    Except String String :=
  let count : Option Nat :=
    match db with
    | .ok n => some n
    | .fail _ => none
  let db_status : String :=
    match db with
    | .ok _ => "✅ Работает"
    | .fail e => "❌ Ошибка: " ++ e
  let page_status : String :=
    match page with
    | .response s => if s = 200 then "✅ Доступна" else "❌ Код: " ++ toString s
    | .error e => "❌ Ошибка: " ++ e
  match count with
  | none => Except.error "NameError: count referenced before assignment"
  | some n =>
    Except.ok
      ("🤖 Статус бота:\n" ++
       "🕐 Время проверки: " ++ check_time ++ "\n" ++
       "📊 Профилей в базе: " ++ toString n ++ "\n" ++
       "🗄️ База данных: " ++ db_status ++ "\n" ++
       "🌐 Целевая страница: " ++ page_status ++ "\n" ++
       "⏰ Следующая проверка через 5 минут")

/-! ## Concrete evaluation inputs -/

/-- A page with two well-formed primary profile blocks with distinct
relative profile urls. -/
def docTwo : Doc :=
  ⟨[⟨["actor-item"], some (some "/name/a"), some " Иван ", none⟩,
    ⟨["person-item"], some (some "/name/b"), none, some (some "/img/b.jpg")⟩]⟩

/-- A page with one well-formed primary block with an absolute url. -/
def docAbs : Doc :=
  ⟨[⟨["actor-item"], some (some "https://x.test/a"), none, none⟩]⟩

/-- A page with no primary-selector matches but one block matching the
secondary heuristic (class value containing the token `card`). -/
def docSecondary : Doc :=
  ⟨[⟨["news-card"], some (some "https://x.test/c"), some "N", none⟩,
    ⟨["sidebar"], none, none, none⟩]⟩

/-- A primary block whose anchor href and image src are both relative. -/
def blockRel : Block :=
  ⟨["actor-item"], some (some "/person/123"), some "Имя", some (some "/img/x.jpg")⟩

/-- A primary block missing its anchor element. -/
def blockNoAnchor : Block :=
  ⟨["actor-item"], none, some "Битый", some (some "/img/z.jpg")⟩

/-- Two valid primary blocks around one block missing its anchor. -/
def docFault : Doc :=
  ⟨[⟨["actor-item"], some (some "/name/a"), some "A", none⟩,
    blockNoAnchor,
    ⟨["actor-item"], some (some "/name/b"), some "B", none⟩]⟩

/-- A primary block with a protocol-relative image src. -/
def docProto : Doc :=
  ⟨[⟨["actor-item"], some (some "/p"), none, some (some "//host/x")⟩]⟩

/-- A delivery oracle under which every photo send fails and every text
send succeeds. -/
def okPhotoFails : Send → Bool := fun s =>
  match s with
  | Send.photo _ _ _ => false
  | Send.text _ _ => true

/-- A delivery oracle under which every send fails. -/
def okAllFail : Send → Bool := fun _ => false

/-- A profile with a photo. -/
def pPhoto : Profile := ⟨"https://x.test/p", "Ирина", some "https://x.test/i.jpg"⟩

/-- A profile without a photo. -/
def pNoPhoto : Profile := ⟨"https://x.test/q", "Олег", none⟩

/-- The profile extracted from `docProto`: both urls were absolutized, the
protocol-relative src verbatim. -/
def pProto : Profile :=
  ⟨"https://www.kino-teatr.ru/p", "Неизвестно",
   some "https://www.kino-teatr.ru//host/x"⟩

/-! ## Helper lemmas -/

theorem containsChars_nil (l : List Char) : containsChars [] l = true := by
  cases l <;> simp [containsChars, List.isPrefixOf]

theorem isPrefixOf_append_self (n b : List Char) :
    n.isPrefixOf (n ++ b) = true :=
  List.isPrefixOf_iff_prefix.mpr (List.prefix_append n b)

theorem containsChars_append (n a b : List Char) :
    containsChars n (a ++ (n ++ b)) = true := by
  induction a with
  | nil =>
    simp only [List.nil_append]
    cases n with
    | nil => exact containsChars_nil b
    | cons c cs =>
      simp [containsChars, isPrefixOf_append_self]
  | cons c a ih =>
    simp [containsChars, ih]

theorem pyContains_append (x s y : String) :
    pyContains (x ++ s ++ y) s = true := by
  unfold pyContains
  have h : (x ++ s ++ y).data = x.data ++ (s.data ++ y.data) := by
    simp [List.append_assoc]
  rw [h]
  exact containsChars_append s.data x.data y.data

theorem pyContains_suffix (x s : String) : pyContains (x ++ s) s = true := by
  unfold pyContains
  have h : (x ++ s).data = x.data ++ (s.data ++ []) := by simp
  rw [h]
  exact containsChars_append s.data x.data []

theorem pyStartswith_SITE_append (s : String) :
    pyStartswith (SITE ++ s) "http" = true := by
  unfold pyStartswith
  rw [List.isPrefixOf_iff_prefix]
  have h : (SITE ++ s).data = SITE.data ++ s.data := by simp
  rw [h]
  exact List.IsPrefix.trans (by decide) (List.prefix_append SITE.data s.data)

theorem pyStartswith_absolutized (s : String) :
    pyStartswith (if pyStartswith s "http" then s else SITE ++ s) "http" = true := by
  by_cases h : pyStartswith s "http" = true
  · simp [h]
  · simp only [Bool.not_eq_true] at h
    simp [h, pyStartswith_SITE_append]

theorem hasUrl_append_left (db l : List Row) (u : String)
    (h : hasUrl db u = true) : hasUrl (db ++ l) u = true := by
  simp only [hasUrl, List.any_append, Bool.or_eq_true]
  exact Or.inl h

theorem hasUrl_save_profile (db : List Row) (now : Nat) (p : Profile)
    (u : String) (h : hasUrl db u = true) :
    hasUrl (save_profile db now p).1 u = true := by
  unfold save_profile
  by_cases hp : hasUrl db p.url = true
  · simpa [hp]
  · simp only [Bool.not_eq_true] at hp
    simp only [hp, Bool.false_eq_true, if_false]
    exact hasUrl_append_left db _ u h

theorem hasUrl_save_profile_self (db : List Row) (now : Nat) (p : Profile) :
    hasUrl (save_profile db now p).1 p.url = true := by
  unfold save_profile
  by_cases hp : hasUrl db p.url = true
  · simp [hp]
  · rw [if_neg hp]
    simp only [hasUrl, List.any_eq_true]
    exact ⟨⟨p.url, p.name, p.photo, now⟩, by simp, by simp⟩

theorem hasUrl_saveAll_mono (now : Nat) (ps : List Profile) (db : List Row)
    (u : String) (h : hasUrl db u = true) :
    hasUrl (saveAll db now ps).1 u = true := by
  induction ps generalizing db with
  | nil => simpa [saveAll]
  | cons p ps ih =>
    simp only [saveAll]
    exact ih _ (hasUrl_save_profile db now p u h)

theorem saveAll_inserts (now : Nat) (ps : List Profile) (db : List Row) :
    ∀ p ∈ ps, hasUrl (saveAll db now ps).1 p.url = true := by
  induction ps generalizing db with
  | nil => simp
  | cons q ps ih =>
    intro p hp
    rcases List.mem_cons.mp hp with rfl | hmem
    · simp only [saveAll]
      exact hasUrl_saveAll_mono now ps _ p.url (hasUrl_save_profile_self db now p)
    · simp only [saveAll]
      exact ih _ p hmem

theorem saveAll_none_new (now : Nat) (ps : List Profile) (db : List Row)
    (h : ∀ p ∈ ps, hasUrl db p.url = true) :
    saveAll db now ps = (db, []) := by
  induction ps with
  | nil => simp [saveAll]
  | cons p ps ih =>
    have hp : hasUrl db p.url = true := h p (List.mem_cons_self p ps)
    have hsave : save_profile db now p = (db, false) := by
      simp [save_profile, hp]
    simp only [saveAll, hsave]
    rw [ih (fun q hq => h q (List.mem_cons_of_mem p hq))]
    simp

theorem saveAll_all_new (now : Nat) (ps : List Profile) (db : List Row)
    (hnodup : (ps.map Profile.url).Nodup)
    (h : ∀ p ∈ ps, hasUrl db p.url = false) :
    (saveAll db now ps).2 = ps := by
  induction ps generalizing db with
  | nil => simp [saveAll]
  | cons p ps ih =>
    have hnd := hnodup
    rw [List.map_cons, List.nodup_cons] at hnd
    have hp : hasUrl db p.url = false := h p (List.mem_cons_self p ps)
    have hsave : save_profile db now p =
        (db ++ [⟨p.url, p.name, p.photo, now⟩], true) := by
      simp [save_profile, hp]
    have htail : ∀ q ∈ ps, hasUrl (db ++ [⟨p.url, p.name, p.photo, now⟩]) q.url = false := by
      intro q hq
      have h1 : hasUrl db q.url = false := h q (List.mem_cons_of_mem p hq)
      have h2 : p.url ≠ q.url := by
        intro he
        exact hnd.1 (he ▸ List.mem_map_of_mem Profile.url hq)
      simp only [hasUrl, List.any_append, List.any_cons, List.any_nil,
        Bool.or_false, Bool.or_eq_false_iff] at h1 ⊢
      refine ⟨h1, ?_⟩
      simp [beq_eq_false_iff_ne, h2]
    have hstep : (saveAll db now (p :: ps)).2
        = p :: (saveAll (db ++ [⟨p.url, p.name, p.photo, now⟩]) now ps).2 := by
      simp [saveAll, hsave]
    rw [hstep]
    exact congrArg (List.cons p) (ih _ hnd.2 htail)

/-! ## Claims -/

/-- C1: running the extract-then-store pipeline (`get_new_profiles`) twice
against an identical document — the same fetch result — starting from a
store containing none of the extracted urls, reports every extracted
entity as new on the first pass and zero entities as new on the second
pass, for every document whose extraction yields entities with pairwise
distinct urls. -/
theorem idempotent_dedup (r : FetchResult) (db : List Row) (now now2 : Nat)
    (hnodup : ((extract_profiles r).map Profile.url).Nodup)
    (hfresh : ∀ p ∈ extract_profiles r, hasUrl db p.url = false) :
    (get_new_profiles db now r).2 = extract_profiles r ∧
    (get_new_profiles (get_new_profiles db now r).1 now2 r).2 = [] := by
  constructor
  · exact saveAll_all_new now _ db hnodup hfresh
  · have h2 : ∀ p ∈ extract_profiles r,
        hasUrl (saveAll db now (extract_profiles r)).1 p.url = true :=
      saveAll_inserts now _ db
    unfold get_new_profiles
    rw [saveAll_none_new now2 _ _ h2]

theorem idempotent_dedup_witness :
    ((extract_profiles (FetchResult.success 200 docTwo)).map Profile.url).Nodup ∧
    ((get_new_profiles [] 0 (FetchResult.success 200 docTwo)).2
        = extract_profiles (FetchResult.success 200 docTwo) ∧
      (get_new_profiles (get_new_profiles [] 0 (FetchResult.success 200 docTwo)).1 1
        (FetchResult.success 200 docTwo)).2 = []) :=
  ⟨by decide,
   idempotent_dedup (FetchResult.success 200 docTwo) [] 0 1 (by decide) (by decide)⟩

/-- C7: `save_profile` is insert-if-absent on the unique `profile_url`
key: a call with an absent url appends exactly one row (never touching the
existing ones) and reports new; a call with a present url reports not-new
and leaves the table entirely unchanged; and after a call that reported
new, every later call for that url reports not-new and leaves the table
unchanged — rows are never updated or deleted. -/
theorem insert_if_absent_spec (db : List Row) (now : Nat) (p : Profile) :
    (hasUrl db p.url = false →
      save_profile db now p = (db ++ [⟨p.url, p.name, p.photo, now⟩], true)) ∧
    (hasUrl db p.url = true → save_profile db now p = (db, false)) ∧
    ((save_profile db now p).2 = true →
      ∀ (now2 : Nat) (q : Profile), q.url = p.url →
        save_profile (save_profile db now p).1 now2 q
          = ((save_profile db now p).1, false)) := by
  refine ⟨fun h => by simp [save_profile, h], fun h => by simp [save_profile, h], ?_⟩
  intro _ now2 q hq
  have hnew : hasUrl (save_profile db now p).1 q.url = true := by
    rw [hq]; exact hasUrl_save_profile_self db now p
  generalize hdb : (save_profile db now p).1 = db2 at hnew ⊢
  simp [save_profile, hnew]

theorem insert_if_absent_spec_witness :
    save_profile [] 0 ⟨"https://x.test/u", "Имя", none⟩
        = ([⟨"https://x.test/u", "Имя", none, 0⟩], true) ∧
    save_profile [⟨"https://x.test/u", "Имя", none, 0⟩] 1
        ⟨"https://x.test/u", "Другое", some "https://x.test/f"⟩
        = ([⟨"https://x.test/u", "Имя", none, 0⟩], false) :=
  ⟨(insert_if_absent_spec [] 0 ⟨"https://x.test/u", "Имя", none⟩).1 (by decide),
   (insert_if_absent_spec [⟨"https://x.test/u", "Имя", none, 0⟩] 1
      ⟨"https://x.test/u", "Другое", some "https://x.test/f"⟩).2.1 (by decide)⟩

/-- C3 counterexample: a 304 response — whose status code is not in the
2xx range — is not treated as a fetch error: `raise_for_status` does not
raise for it, the body is processed normally, and the cycle reports a new
entity instead of the empty list the claim requires. -/
theorem non2xx_not_fetch_error :
    (get_new_profiles [] 0 (FetchResult.success 304 docAbs)).2
      = [⟨"https://x.test/a", "Неизвестно", none⟩] := by decide

/-- C3 amended: every transport-level failure and every response whose
status code lies in the 4xx or 5xx ranges (the codes `raise_for_status`
raises for) is uniformly treated as a recoverable fetch error, and on such
an error the cycle returns an empty list of new entities, leaving the
store untouched. -/
theorem fetch_error_empty_cycle (db : List Row) (now : Nat) :
    (∀ status doc, 400 ≤ status → status < 600 →
      get_new_profiles db now (FetchResult.success status doc) = (db, [])) ∧
    (∀ msg, get_new_profiles db now (FetchResult.failure msg) = (db, [])) := by
  constructor
  · intro s d h1 h2
    have hr : raisesForStatus s = true := by
      simp [raisesForStatus, h1, h2]
    simp [get_new_profiles, extract_profiles, hr, saveAll]
  · intro msg
    simp [get_new_profiles, extract_profiles, saveAll]

theorem fetch_error_empty_cycle_witness :
    get_new_profiles [] 0 (FetchResult.success 404 ⟨[]⟩) = ([], []) ∧
    get_new_profiles [] 0 (FetchResult.failure "timeout") = ([], []) :=
  ⟨(fetch_error_empty_cycle [] 0).1 404 ⟨[]⟩ (by decide) (by decide),
   (fetch_error_empty_cycle [] 0).2 "timeout"⟩

/-- C5: when zero blocks match the primary selector strategy but at least
one block matches the secondary strategy, extraction works on the
secondary strategy's blocks — a non-empty block list — and returns exactly
the entities produced from them. -/
theorem fallback_strategy_ordering (d : Doc)
    (hprim : d.blocks.filter primaryMatch = [])
    (hsec : d.blocks.filter secondaryMatch ≠ []) :
    findProfileBlocks d = d.blocks.filter secondaryMatch ∧
    findProfileBlocks d ≠ [] ∧
    extractFromDoc d = (d.blocks.filter secondaryMatch).filterMap extractBlock := by
  have hfb : findProfileBlocks d = d.blocks.filter secondaryMatch := by
    unfold findProfileBlocks
    simp [hprim]
  refine ⟨hfb, ?_, ?_⟩
  · rw [hfb]; exact hsec
  · unfold extractFromDoc; rw [hfb]

theorem fallback_strategy_ordering_witness :
    docSecondary.blocks.filter primaryMatch = [] ∧
    docSecondary.blocks.filter secondaryMatch ≠ [] ∧
    (findProfileBlocks docSecondary = docSecondary.blocks.filter secondaryMatch ∧
      findProfileBlocks docSecondary ≠ [] ∧
      extractFromDoc docSecondary
        = (docSecondary.blocks.filter secondaryMatch).filterMap extractBlock) :=
  ⟨by decide, by decide,
   fallback_strategy_ordering docSecondary (by decide) (by decide)⟩

/-- C6: for a block whose anchor href is present and non-empty, extraction
succeeds, and whichever of the href / image src is a relative path (does
not start with `http`) is rewritten to an absolute URI by prefixing the
monitored site's origin. -/
theorem url_normalization (b : Block) (href : String)
    (hlink : b.link = some (some href)) (hhref : href ≠ "") :
    (extractBlock b).isSome = true ∧
    ∀ p, extractBlock b = some p →
      (pyStartswith href "http" = false → p.url = SITE ++ href) ∧
      (∀ src, b.imgSrc = some (some src) → src ≠ "" →
        pyStartswith src "http" = false → p.photo = some (SITE ++ src)) := by
  obtain ⟨cls, lnk, nm, img⟩ := b
  obtain rfl : lnk = some (some href) := hlink
  match img with
  | none =>
    refine ⟨by simp [extractBlock, hhref], ?_⟩
    intro p hp
    simp [extractBlock, hhref] at hp
    obtain rfl := hp.symm
    constructor
    · intro hrel; simp [hrel]
    · intro src hsrc
      simp at hsrc
  | some none =>
    refine ⟨by simp [extractBlock, hhref], ?_⟩
    intro p hp
    simp [extractBlock, hhref] at hp
    obtain rfl := hp.symm
    constructor
    · intro hrel; simp [hrel]
    · intro src hsrc
      simp at hsrc
  | some (some src0) =>
    by_cases hs0 : src0 = ""
    · refine ⟨by simp [extractBlock, hhref, hs0], ?_⟩
      intro p hp
      simp [extractBlock, hhref, hs0] at hp
      obtain rfl := hp.symm
      constructor
      · intro hrel; simp [hrel]
      · intro src hsrc hne _
        simp only [Option.some.injEq] at hsrc
        subst hsrc
        exact absurd hs0 hne
    · refine ⟨by simp [extractBlock, hhref, hs0], ?_⟩
      intro p hp
      simp [extractBlock, hhref, hs0] at hp
      obtain rfl := hp.symm
      constructor
      · intro hrel; simp [hrel]
      · intro src hsrc _ hrel
        simp only [Option.some.injEq] at hsrc
        subst hsrc
        simp [hrel]

theorem url_normalization_witness :
    (extractBlock blockRel).isSome = true ∧
    ∃ p, extractBlock blockRel = some p ∧ p.url = SITE ++ "/person/123" ∧
      p.photo = some (SITE ++ "/img/x.jpg") := by
  obtain ⟨hsome, hall⟩ := url_normalization blockRel "/person/123" rfl (by decide)
  obtain ⟨p, hp⟩ := Option.isSome_iff_exists.mp hsome
  obtain ⟨hu, hph⟩ := hall p hp
  exact ⟨hsome, p, hp, hu (by decide), hph "/img/x.jpg" rfl (by decide) (by decide)⟩

theorem length_filterMap_all_some {α β : Type} (f : α → Option β) (l : List α)
    (h : ∀ a ∈ l, (f a).isSome = true) :
    (l.filterMap f).length = l.length := by
  induction l with
  | nil => rfl
  | cons a l ih =>
    have ha := h a (List.mem_cons_self a l)
    obtain ⟨b, hb⟩ := Option.isSome_iff_exists.mp ha
    rw [List.filterMap_cons, hb]
    simp [ih (fun x hx => h x (List.mem_cons_of_mem a hx))]

/-- C8: when block discovery yields some valid profile blocks around one
block missing its anchor element, extraction returns exactly one entity
per valid block — the malformed block is discarded without aborting the
processing of the remaining blocks. -/
theorem block_fault_isolation (d : Doc) (good1 good2 : List Block) (bad : Block)
    (hblocks : findProfileBlocks d = good1 ++ bad :: good2)
    (hbad : bad.link = none)
    (hgood : ∀ b ∈ good1 ++ good2, (extractBlock b).isSome = true) :
    (extractFromDoc d).length = good1.length + good2.length := by
  unfold extractFromDoc
  rw [hblocks]
  have hbadnone : extractBlock bad = none := by
    unfold extractBlock; rw [hbad]
  rw [List.filterMap_append, List.filterMap_cons, hbadnone, List.length_append]
  rw [length_filterMap_all_some _ _ (fun b hb => hgood b (List.mem_append_left _ hb)),
    length_filterMap_all_some _ _ (fun b hb => hgood b (List.mem_append_right _ hb))]

theorem block_fault_isolation_witness :
    (extractFromDoc docFault).length = 2 := by
  have h := block_fault_isolation docFault
    [⟨["actor-item"], some (some "/name/a"), some "A", none⟩]
    [⟨["actor-item"], some (some "/name/b"), some "B", none⟩]
    blockNoAnchor (by decide) (by decide) (by decide)
  simpa using h

theorem extractBlock_absolute (b : Block) (p : Profile)
    (h : extractBlock b = some p) :
    pyStartswith p.url "http" = true ∧
    (∀ s, p.photo = some s → pyStartswith s "http" = true) := by
  obtain ⟨cls, lnk, nm, img⟩ := b
  match lnk with
  | none => simp [extractBlock] at h
  | some none => simp [extractBlock] at h
  | some (some href) =>
    by_cases hh : href = ""
    · simp [extractBlock, hh] at h
    · match img with
      | none =>
        simp [extractBlock, hh] at h
        obtain rfl := h.symm
        exact ⟨pyStartswith_absolutized href, by intro s hs; simp at hs⟩
      | some none =>
        simp [extractBlock, hh] at h
        obtain rfl := h.symm
        exact ⟨pyStartswith_absolutized href, by intro s hs; simp at hs⟩
      | some (some src) =>
        by_cases hs0 : src = ""
        · simp [extractBlock, hh, hs0] at h
          obtain rfl := h.symm
          exact ⟨pyStartswith_absolutized href, by intro s hs; simp at hs⟩
        · simp [extractBlock, hh, hs0] at h
          obtain rfl := h.symm
          refine ⟨pyStartswith_absolutized href, ?_⟩
          intro s hs
          simp only [Option.some.injEq] at hs
          rw [← hs]
          exact pyStartswith_absolutized src

/-- C9: every entity returned by extraction has a url starting with
`http`, and a photo that is either absent or starts with `http` —
absoluteness being decided solely by the `startswith` prefix test applied
before prepending the site origin. -/
theorem extracted_urls_absolute (d : Doc) (p : Profile)
    (hp : p ∈ extractFromDoc d) :
    pyStartswith p.url "http" = true ∧
    (∀ s, p.photo = some s → pyStartswith s "http" = true) := by
  unfold extractFromDoc at hp
  obtain ⟨b, _, hex⟩ := List.mem_filterMap.mp hp
  exact extractBlock_absolute b p hex

theorem extracted_urls_absolute_witness :
    pProto ∈ extractFromDoc docProto ∧
    pProto.photo = some "https://www.kino-teatr.ru//host/x" ∧
    (pyStartswith pProto.url "http" = true ∧
      (∀ s, pProto.photo = some s → pyStartswith s "http" = true)) :=
  ⟨by decide, by decide, extracted_urls_absolute docProto pProto (by decide)⟩

theorem fallbackText_contains (p : Profile) :
    pyContains (fallbackText p) p.name = true ∧
    pyContains (fallbackText p) p.url = true ∧
    pyContains (fallbackText p) "ошибка загрузки фото" = true := by
  refine ⟨?_, ?_, ?_⟩
  · have h : fallbackText p
        = "🎭 Новый профиль (ошибка загрузки фото):\n👤 " ++ p.name
            ++ ("\n🔗 " ++ p.url) := by
      simp [fallbackText, String.append_assoc]
    rw [h]
    exact pyContains_append _ _ _
  · have h : fallbackText p
        = ("🎭 Новый профиль (ошибка загрузки фото):\n👤 " ++ p.name ++ "\n🔗 ")
            ++ p.url := by
      simp [fallbackText, String.append_assoc]
    rw [h]
    exact pyContains_suffix _ _
  · have hlit : ("🎭 Новый профиль (ошибка загрузки фото):\n👤 " : String)
        = "🎭 Новый профиль (ошибка загрузки фото" ++ "):\n👤 " := by decide
    have h : fallbackText p
        = "🎭 Новый профиль (" ++ "ошибка загрузки фото"
            ++ ("):\n👤 " ++ p.name ++ "\n🔗 " ++ p.url) := by
      simp only [fallbackText, String.append_assoc]
      rw [hlit, String.append_assoc]
      rfl
    rw [h]
    exact pyContains_append _ _ _

/-- C4: for an entity with a present (truthy) photo url whose
photo-with-caption delivery fails, the Notifier issues exactly one
subsequent text-only send, whose body carries the entity's name and url
together with the explicit image-failure note. -/
theorem notification_degradation (ok : Send → Bool) (chat : String)
    (p : Profile) (ph : String) (hph : p.photo = some ph) (hne : ph ≠ "")
    (hfail : ok (Send.photo chat ph (notifMessage p)) = false) :
    send_notification ok chat [p]
      = [(Send.photo chat ph (notifMessage p), false),
         (Send.text chat (fallbackText p), ok (Send.text chat (fallbackText p)))] ∧
    textSends (send_notification ok chat [p]) = [Send.text chat (fallbackText p)] ∧
    pyContains (fallbackText p) p.name = true ∧
    pyContains (fallbackText p) p.url = true ∧
    pyContains (fallbackText p) "ошибка загрузки фото" = true := by
  have hpr : primarySend chat p = Send.photo chat ph (notifMessage p) := by
    simp [primarySend, hph, hne]
  have htrace : send_notification ok chat [p]
      = [(Send.photo chat ph (notifMessage p), false),
         (Send.text chat (fallbackText p), ok (Send.text chat (fallbackText p)))] := by
    simp [send_notification, notifyOne, hpr, hfail]
  refine ⟨htrace, ?_, (fallbackText_contains p).1, (fallbackText_contains p).2.1,
    (fallbackText_contains p).2.2⟩
  rw [htrace]
  simp [textSends]

theorem notification_degradation_witness :
    send_notification okPhotoFails "chat1" [pPhoto]
      = [(Send.photo "chat1" "https://x.test/i.jpg" (notifMessage pPhoto), false),
         (Send.text "chat1" (fallbackText pPhoto),
           okPhotoFails (Send.text "chat1" (fallbackText pPhoto)))] ∧
    textSends (send_notification okPhotoFails "chat1" [pPhoto])
      = [Send.text "chat1" (fallbackText pPhoto)] ∧
    pyContains (fallbackText pPhoto) pPhoto.name = true ∧
    pyContains (fallbackText pPhoto) pPhoto.url = true ∧
    pyContains (fallbackText pPhoto) "ошибка загрузки фото" = true :=
  notification_degradation okPhotoFails "chat1" pPhoto "https://x.test/i.jpg"
    rfl (by decide) rfl

/-- C10: the text-only fallback is issued for any failed primary delivery,
not only failed photo deliveries: for an entity without a photo whose
primary text-only send fails, the Notifier issues a second text-only send
carrying the image-could-not-be-attached wording together with the
entity's name and url. -/
theorem text_fallback_on_any_failure (ok : Send → Bool) (chat : String)
    (p : Profile) (hph : p.photo = none)
    (hfail : ok (Send.text chat (notifMessage p)) = false) :
    send_notification ok chat [p]
      = [(Send.text chat (notifMessage p), false),
         (Send.text chat (fallbackText p), ok (Send.text chat (fallbackText p)))] ∧
    pyContains (fallbackText p) p.name = true ∧
    pyContains (fallbackText p) p.url = true ∧
    pyContains (fallbackText p) "ошибка загрузки фото" = true := by
  have hpr : primarySend chat p = Send.text chat (notifMessage p) := by
    simp [primarySend, hph]
  refine ⟨?_, (fallbackText_contains p).1, (fallbackText_contains p).2.1,
    (fallbackText_contains p).2.2⟩
  simp [send_notification, notifyOne, hpr, hfail]

theorem text_fallback_on_any_failure_witness :
    send_notification okAllFail "chat1" [pNoPhoto]
      = [(Send.text "chat1" (notifMessage pNoPhoto), false),
         (Send.text "chat1" (fallbackText pNoPhoto),
           okAllFail (Send.text "chat1" (fallbackText pNoPhoto)))] ∧
    pyContains (fallbackText pNoPhoto) pNoPhoto.name = true ∧
    pyContains (fallbackText pNoPhoto) pNoPhoto.url = true ∧
    pyContains (fallbackText pNoPhoto) "ошибка загрузки фото" = true :=
  text_fallback_on_any_failure okAllFail "chat1" pNoPhoto rfl rfl

/-- C2: evaluation at the failing input.  When the store connection check
fails, `ping_command` does not complete: the report interpolates the local
`count`, which the failed `try` block never assigned, so a `NameError`
escapes uncaught instead of a plain-text report being returned. -/
theorem ping_command_raises_on_db_failure :
    ping_command "2026-10-12 00:00:00"
        (DbCheck.fail "unable to open database file") (PageCheck.response 200)
      = Except.error "NameError: count referenced before assignment" := rfl
